import Mathlib

/-! AfyaAccess frontend: session store and patient-status workflow

A shallow embedding of the logic in `frontend/src/api.js`,
`frontend/src/context/AuthContext.jsx` and
`frontend/src/components/dashboard.jsx`.

JavaScript values are embedded as data, the browser's `localStorage` as a
record of three optional strings, React state as an explicit record, and every
network answer as an explicit input of the operation that awaits it, as is the
room the storage has for a write. `JSON.parse` is a parameter.
Numbers are integers (patient ids); floating point and `NaN` are outside the
model.
-/

namespace AfyaAccess

/-! ## JavaScript values -/

/-- Primitive JavaScript values. Strict equality `===` on these is structural
equality (there is no `NaN` in the model). -/
inductive Prim where
  | undefined
  | null
  | bool (b : Bool)
  | num (n : Int)
  | str (s : String)
deriving DecidableEq, Repr

/-- Values produced by `res.json()`: primitives, arrays and objects, the latter
as the list of their own properties in property order. -/
inductive JSVal where
  | prim (p : Prim)
  | arr (items : List JSVal)
  | obj (fields : List (String × JSVal))
deriving Repr

/-- Truthiness of a primitive: `undefined`, `null`, `false`, `0` and `""`
are falsy. -/
def Prim.truthy : Prim → Bool
  | .undefined => false
  | .null => false
  | .bool b => b
  | .num n => n != 0
  | .str s => s != ""

/-- Truthiness of a value: every array and every object is truthy. -/
def JSVal.truthy : JSVal → Bool
  | .prim p => p.truthy
  | .arr _ => true
  | .obj _ => true

/-- String coercion `String(v)` of a primitive, as applied by template literals
and by `localStorage.setItem`. Integers are written with all their digits, as
JavaScript does below `10^21`. -/
def Prim.toStr : Prim → String
  | .undefined => "undefined"
  | .null => "null"
  | .bool true => "true"
  | .bool false => "false"
  | .num n => toString n
  | .str s => s

/-- The operator `a || b` on primitives. -/
def Prim.orElse (a b : Prim) : Prim :=
  if a.truthy then a else b

/-- One lower-case hexadecimal digit, as written in `\u00XX` escapes. -/
def hexDigit (n : Nat) : Char :=
  if n < 10 then Char.ofNat (48 + n) else Char.ofNat (87 + n)

/-- The escape `JSON.stringify` writes for one character of a string. -/
def escapeChar (c : Char) : String :=
  if c.toNat = 34 then "\\\""
  else if c.toNat = 92 then "\\\\"
  else if c.toNat = 8 then "\\b"
  else if c.toNat = 12 then "\\f"
  else if c.toNat = 10 then "\\n"
  else if c.toNat = 13 then "\\r"
  else if c.toNat = 9 then "\\t"
  else if c.toNat < 32 then
    "\\u00" ++ String.mk [hexDigit (c.toNat / 16), hexDigit (c.toNat % 16)]
  else String.singleton c

/-- The JSON text of a string: quoted, with the mandatory escapes. -/
def quote (s : String) : String :=
  "\"" ++ String.join (s.toList.map escapeChar) ++ "\""

/-- The function `JSON.stringify` on a primitive; `none` is the `undefined` it
returns for `undefined`. -/
def Prim.stringify : Prim → Option String
  | .undefined => none
  | .null => some "null"
  | .bool true => some "true"
  | .bool false => some "false"
  | .num n => some (toString n)
  | .str s => some (quote s)

mutual
/-- The function `JSON.stringify` on a value; `none` is the `undefined` it
returns for `undefined`. -/
def JSVal.stringify : JSVal → Option String
  | .prim p => p.stringify
  | .arr items => some ("[" ++ String.intercalate "," (JSVal.stringifyItems items) ++ "]")
  | .obj fields => some ("\x7b" ++ String.intercalate "," (JSVal.stringifyFields fields) ++ "\x7d")
/-- The elements of an array; an `undefined` element is written `null`. -/
def JSVal.stringifyItems : List JSVal → List String
  | [] => []
  | v :: rest =>
    match JSVal.stringify v with
    | none => "null" :: JSVal.stringifyItems rest
    | some t => t :: JSVal.stringifyItems rest
/-- The `"key":value` members of an object; properties whose value is
`undefined` are left out. -/
def JSVal.stringifyFields : List (String × JSVal) → List String
  | [] => []
  | (k, v) :: rest =>
    match JSVal.stringify v with
    | none => JSVal.stringifyFields rest
    | some t => (quote k ++ ":" ++ t) :: JSVal.stringifyFields rest
end

/-! ## The HTTP collaborator -/

/-- What `fetch` is called with. -/
structure Request where
  method : String
  url : String
  headers : List (String × String)
  body : Option String
deriving DecidableEq, Repr

/-- What a resolved `fetch` gives: the status code and the outcome of
`res.json()`, which is `none` when the body is not JSON (the promise rejects). -/
structure Response (α : Type) where
  status : Nat
  json : Option α

/-- The flag `res.ok`: the status is in the range 200 to 299. -/
def Response.ok {α : Type} (res : Response α) : Bool :=
  decide (200 ≤ res.status) && decide (res.status ≤ 299)

/-- Outcome of awaiting `fetch`: the promise rejects (network failure) or
resolves with a response, whatever its status. -/
inductive FetchResult (α : Type) where
  | rejected
  | resolved (res : Response α)

/-- The error raised by a failing operation, with its message. -/
structure JSError where
  message : String
deriving DecidableEq, Repr

/-- The three `localStorage` slots the application uses; `none` is what
`getItem` answers with `null` for. -/
structure Store where
  token : Option String
  refresh : Option String
  user : Option String
deriving DecidableEq, Repr

/-- The constant `API_URL` of `api.js`. -/
def API_URL : String := "http://localhost:8000/api"

/-- The conditional spread of the `Authorization` header: it is sent when the
stored token is truthy, that is a non-empty string. -/
def authHeader (token : Option String) : List (String × String) :=
  match token with
  | none => []
  | some t => if t != "" then [("Authorization", "Bearer " ++ t)] else []

/-! ## Dashboard: the status workflow -/

/-- A patient record as the dashboard handles it: the two properties the code
reads, and the remaining ones. An absent property is `undefined`. Property
values are primitives (ids are numbers or strings), so `===` compares them by
value. -/
structure Patient where
  id : Prim
  status : Prim
  other : List (String × Prim)
deriving DecidableEq, Repr

/-- The constant `STATUS_LABELS`. -/
def STATUS_LABELS : List (String × String) :=
  [("billing", "Sent to Billing"),
   ("consultation", "Doctor Consultation"),
   ("lab", "Lab Requested"),
   ("done", "Completed")]

/-- The constant `STATUS_ORDER`. -/
def STATUS_ORDER : List String := ["billing", "consultation", "lab", "done"]

/-- The method `Array.prototype.indexOf` on an array of strings: the first
position holding a strictly equal element, `-1` when there is none. -/
def indexOf (xs : List String) (x : Prim) : Int :=
  match x with
  | .str s => if xs.indexOf s < xs.length then (xs.indexOf s : Int) else -1
  | _ => -1

/-- Array indexing `xs[i]`: `undefined` outside the array. -/
def arrayGet (xs : List String) (i : Int) : Prim :=
  if i < 0 then .undefined
  else match xs.get? i.toNat with
    | some s => .str s
    | none => .undefined

/-- Property lookup `STATUS_LABELS[key]` for a key that is not the name of a
member of `Object.prototype`: `undefined` when the key is not an own property.
The code applies it to elements of `STATUS_ORDER` only. -/
def labelOf (key : Prim) : Prim :=
  match STATUS_LABELS.lookup key.toStr with
  | some l => .str l
  | none => .undefined

/-- The index `Math.min(currentIndex + 1, STATUS_ORDER.length - 1)` computed by
`advanceStatus` for a status value. -/
def nextIndex (status : Prim) : Int :=
  min (indexOf STATUS_ORDER (status.orElse (.str "billing")) + 1)
    ((STATUS_ORDER.length : Int) - 1)

/-- The constant `next` computed by `advanceStatus` for a status value. -/
def nextStatus (status : Prim) : Prim :=
  arrayGet STATUS_ORDER (nextIndex status)

/-- The object passed to `updatePatient`: its only property is `status`. -/
structure UpdateObj where
  status : Prim
deriving DecidableEq, Repr

/-- The function `JSON.stringify` on an update object. -/
def UpdateObj.stringify (o : UpdateObj) : String :=
  match o.status.stringify with
  | none => "\x7b\x7d"
  | some t => "\x7b" ++ quote "status" ++ ":" ++ t ++ "\x7d"

/-- The request `updatePatient` sends. -/
def updateRequest (store : Store) (patientId : Prim) (updateObj : UpdateObj) : Request :=
  { method := "PATCH"
    url := API_URL ++ "/patients/" ++ patientId.toStr ++ "/"
    headers := ("Content-Type", "application/json") :: authHeader store.token
    body := some updateObj.stringify }

/-- The function `updatePatient` of `api.js`: it awaits `fetch`, then returns
`res.json()` without looking at `res.ok`. It fails when `fetch` rejects or
the body is not JSON. -/
def updatePatient (fetch : Request → FetchResult Patient) (store : Store)
    (patientId : Prim) (updateObj : UpdateObj) : Except JSError Patient :=
  match fetch (updateRequest store patientId updateObj) with
  | .rejected => .error ⟨"Failed to fetch"⟩
  | .resolved res =>
    match res.json with
    | none => .error ⟨"Unexpected token in JSON"⟩
    | some v => .ok v

/-- The React state of `Dashboard`. -/
structure Dashboard where
  patients : List Patient
  loading : Bool
  msg : String
deriving DecidableEq, Repr

/-- One call of the update collaborator: its two arguments. -/
structure UpdateCall where
  patientId : Prim
  updateObj : UpdateObj
deriving DecidableEq, Repr

/-- What a run of `advanceStatus` leaves behind: the component state and the
calls it made to the update collaborator, in order. The function always
returns: every failure of the collaborator is caught inside it. -/
structure AdvanceResult where
  state : Dashboard
  calls : List UpdateCall
deriving DecidableEq, Repr

/-- The function `advanceStatus` of `dashboard.jsx`, with the update
collaborator as a parameter. -/
def advanceStatus (update : Prim → UpdateObj → Except JSError Patient)
    (st : Dashboard) (p : Patient) : AdvanceResult :=
  let next := nextStatus p.status
  if next = p.status then ⟨st, []⟩
  else
    match update p.id ⟨next⟩ with
    | .ok updated =>
      ⟨{ st with
          patients := st.patients.map (fun i => if i.id = p.id then updated else i)
          msg := "Patient " ++ p.id.toStr ++ " moved to \"" ++ (labelOf next).toStr ++ "\"" },
        [⟨p.id, ⟨next⟩⟩]⟩
    | .error _ =>
      ⟨{ st with msg := "Failed to update status" }, [⟨p.id, ⟨next⟩⟩]⟩

/-! ## Session: `loginUser` and `AuthProvider` -/

/-- Optional property read `v?.key`: `undefined` on `undefined` and `null`, on
primitives and arrays (none of the keys read here is a property of a primitive
wrapper or of an array) and on objects without the property. -/
def JSVal.optProp (v : JSVal) (key : String) : JSVal :=
  match v with
  | .prim _ => .prim .undefined
  | .arr _ => .prim .undefined
  | .obj fields => (fields.lookup key).getD (.prim .undefined)

/-- Property read `v.key`: a `TypeError` on `undefined` and `null`. -/
def JSVal.getProp (v : JSVal) (key : String) : Except JSError JSVal :=
  match v with
  | .prim .undefined => .error ⟨"Cannot read properties of undefined"⟩
  | .prim .null => .error ⟨"Cannot read properties of null"⟩
  | _ => .ok (v.optProp key)

mutual
/-- String coercion `String(v)` of a value. An object parsed from JSON holds no
function: when it has an own property `toString` the conversion finds no method
giving a primitive and throws a `TypeError`; otherwise it reaches
`Object.prototype.toString`. An array is joined with commas. -/
def JSVal.toStr : JSVal → Except JSError String
  | .prim p => .ok p.toStr
  | .arr items =>
    match JSVal.joinItems items with
    | .error e => .error e
    | .ok parts => .ok (String.intercalate "," parts)
  | .obj fields =>
    if (fields.lookup "toString").isSome then
      .error ⟨"Cannot convert object to primitive value"⟩
    else .ok "[object Object]"
/-- The texts `Array.prototype.join` gives to the elements, in order: the empty
string for `undefined` and `null`, the string coercion for the others; the
first conversion that throws stops it. -/
def JSVal.joinItems : List JSVal → Except JSError (List String)
  | [] => .ok []
  | .prim .undefined :: rest =>
    match JSVal.joinItems rest with
    | .error e => .error e
    | .ok parts => .ok ("" :: parts)
  | .prim .null :: rest =>
    match JSVal.joinItems rest with
    | .error e => .error e
    | .ok parts => .ok ("" :: parts)
  | v :: rest =>
    match JSVal.toStr v with
    | .error e => .error e
    | .ok text =>
      match JSVal.joinItems rest with
      | .error e => .error e
      | .ok parts => .ok (text :: parts)
end

/-- The value `JSON.stringify(v)`: a string, or `undefined`. -/
def JSVal.jsonStringify (v : JSVal) : JSVal :=
  match v.stringify with
  | some t => .prim (.str t)
  | none => .prim .undefined

/-- The text `localStorage.setItem("user", JSON.stringify(v))` stores: the JSON
text, or the string `"undefined"` when `JSON.stringify` returns `undefined`. -/
def serialize (v : JSVal) : String :=
  match v.stringify with
  | some t => t
  | none => "undefined"

/-- The keys of the three slots. -/
inductive Slot where
  | token
  | refresh
  | user
deriving DecidableEq, Repr

/-- The store with one slot overwritten. -/
def Store.set (store : Store) : Slot → String → Store
  | .token, text => { store with token := some text }
  | .refresh, text => { store with refresh := some text }
  | .user, text => { store with user := some text }

/-- The method `localStorage.setItem(key, value)`: the value is converted to a
string, which may throw, and stored unless the storage refuses the write
(`room` says whether it has room for this text under this key), in which
case it throws a `QuotaExceededError`. -/
def setItem (room : Slot → String → Bool) (store : Store) (slot : Slot) (value : JSVal) :
    Except JSError Store :=
  match value.toStr with
  | .error e => .error e
  | .ok text =>
    if room slot text then .ok (store.set slot text)
    else .error ⟨"The quota has been exceeded"⟩

/-- The three writes of `loginUser`, in their order: the store they leave and
the error that stopped them, if any. A write that throws leaves the earlier
ones in place. -/
def persistSession (room : Slot → String → Bool) (store : Store) (data : JSVal) :
    Store × Option JSError :=
  match setItem room store .token (data.optProp "access") with
  | .error e => (store, some e)
  | .ok store1 =>
    match setItem room store1 .refresh (data.optProp "refresh") with
    | .error e => (store1, some e)
    | .ok store2 =>
      match setItem room store2 .user (data.optProp "user").jsonStringify with
      | .error e => (store2, some e)
      | .ok store3 => (store3, none)

/-- The request `loginUser` sends. -/
def loginRequest (credentials : JSVal) : Request :=
  { method := "POST"
    url := API_URL ++ "/token/"
    headers := [("Content-Type", "application/json")]
    body := credentials.stringify }

/-- The function `loginUser` of `api.js`: the store after the call and what
the call returns or raises. -/
def loginUser (room : Slot → String → Bool) (fetch : Request → FetchResult JSVal)
    (credentials : JSVal) (store : Store) : Store × Except JSError JSVal :=
  match fetch (loginRequest credentials) with
  | .rejected => (store, .error ⟨"Failed to fetch"⟩)
  | .resolved res =>
    if !res.ok then (store, .error ⟨"Login failed: " ++ toString res.status⟩)
    else
      match res.json with
      | none => (store, .error ⟨"Unexpected token in JSON"⟩)
      | some data =>
        if (data.optProp "access").truthy then
          match persistSession room store data with
          | (store', some e) => (store', .error e)
          | (store', none) => (store', .ok data)
        else (store, .ok data)

/-- The state of the session: the React state `user` of `AuthProvider`
(`null` when nobody is logged in) and the persisted store. -/
structure Session where
  user : JSVal
  store : Store

/-- The session at startup on a fresh browser: no identity, empty store. -/
def Session.initial : Session :=
  ⟨.prim .null, ⟨none, none, none⟩⟩

/-- The mount of `AuthProvider` at page load: `useState(null)` starts without
identity, then the mount effect reads the persisted one. With `parse` for
`JSON.parse` (`none` when it throws), the session after the mount and the error
the effect raised. -/
def restore (parse : String → Option JSVal) (s : Session) : Session × Option JSError :=
  match s.store.user with
  | none => ({ s with user := .prim .null }, none)
  | some storedUser =>
    if storedUser != "" then
      match parse storedUser with
      | some v => ({ s with user := v }, none)
      | none => ({ s with user := .prim .null }, some ⟨"Unexpected token in JSON"⟩)
    else ({ s with user := .prim .null }, none)

/-- The function `login` of `AuthProvider`: the session after the call and the
error raised to the caller, if any. -/
def login (room : Slot → String → Bool) (fetch : Request → FetchResult JSVal)
    (credentials : JSVal) (s : Session) : Session × Option JSError :=
  match loginUser room fetch credentials s.store with
  | (store, .error e) => ({ s with store := store }, some e)
  | (store, .ok data) =>
    match data.getProp "user" with
    | .error e => ({ s with store := store }, some e)
    | .ok u => ({ user := u, store := store }, none)

/-- The function `logout` of `AuthProvider`. It has no failing step. -/
def logout (_s : Session) : Session :=
  { user := .prim .null, store := { user := none, token := none, refresh := none } }

/-- One event of the session: a page load (mount), a login with the answer the
token endpoint gives to it and the room the storage has during it, or a
logout. -/
inductive Action where
  | restore
  | login (credentials : JSVal) (answer : FetchResult JSVal) (room : Slot → String → Bool)
  | logout

/-- The session after one event. -/
def step (parse : String → Option JSVal) (s : Session) : Action → Session
  | .restore => (restore parse s).1
  | .login credentials answer room => (login room (fun _ => answer) credentials s).1
  | .logout => logout s

/-- The session after a sequence of events. -/
def run (parse : String → Option JSVal) (s : Session) (acts : List Action) : Session :=
  acts.foldl (step parse) s

/-- A condition on events holds all along a run: each event satisfies it in the
session it arrives in. -/
def alongRun (parse : String → Option JSVal) (ok : Session → Action → Prop) :
    Session → List Action → Prop
  | _, [] => True
  | s, a :: rest => ok s a ∧ alongRun parse ok (step parse s a) rest

/-- The three slots are all present or all absent. -/
def Store.allOrNone (st : Store) : Prop :=
  (st.token.isSome ∧ st.refresh.isSome ∧ st.user.isSome) ∨
  (st.token = none ∧ st.refresh = none ∧ st.user = none)

/-- The slots present form a prefix of token, refresh, user. -/
def Store.prefixClosed (st : Store) : Prop :=
  (st.user.isSome → st.refresh.isSome) ∧ (st.refresh.isSome → st.token.isSome)

/-- A login that raises after it has changed the store while the three slots
were not all present: the event that leaves a store partly written. -/
def Action.interrupted (s : Session) : Action → Prop
  | .login credentials answer room =>
    (AfyaAccess.login room (fun _ => answer) credentials s).2.isSome ∧
    (AfyaAccess.login room (fun _ => answer) credentials s).1.store ≠ s.store ∧
    ¬ (s.store.token.isSome ∧ s.store.refresh.isSome ∧ s.store.user.isSome)
  | _ => False

/-- A login whose 2xx JSON answer lacks a truthy access token and carries a
truthy identity while another identity is persisted. -/
def Action.foreignIdentity (s : Session) : Action → Prop
  | .login _ (.resolved res) _ =>
    res.ok = true ∧ ∃ data, res.json = some data ∧
      (data.optProp "access").truthy = false ∧ (data.optProp "user").truthy = true ∧
      ∃ stored, s.store.user = some stored ∧ stored ≠ serialize (data.optProp "user")
  | _ => False

/-- The values the JSON parser produces. -/
def Parsed (parse : String → Option JSVal) (v : JSVal) : Prop :=
  ∃ text, parse text = some v

/-- The JSON answer of a login event, like every result of `res.json()`, is a
value the JSON parser produces. -/
def Action.answerParsed (parse : String → Option JSVal) : Action → Prop
  | .login _ (.resolved res) _ => ∀ data, res.json = some data → Parsed parse data
  | _ => True

/-- What the development assumes of `JSON.parse`: the property values of a
parsed object are parsed values; the text `JSON.stringify` writes for a parsed
value parses, if at all, to a value with the same text; and the text `undefined`
does not parse. -/
structure JSONParser (parse : String → Option JSVal) : Prop where
  subvalue : ∀ fields key w, Parsed parse (.obj fields) → fields.lookup key = some w →
    Parsed parse w
  roundtrip : ∀ v w, Parsed parse v → parse (serialize v) = some w →
    serialize w = serialize v
  undefinedFails : parse "undefined" = none

/-- The session invariant behind the identity claim: a persisted identity is
the text of a parsed value or of `undefined`, and it is the text of the
in-memory identity when that one is truthy. -/
def Session.consistent (parse : String → Option JSVal) (s : Session) : Prop :=
  ∀ stored, s.store.user = some stored →
    (∃ u, stored = serialize u ∧ (Parsed parse u ∨ u = .prim .undefined)) ∧
    (s.user.truthy = true → stored = serialize s.user)

/-! ## Sample data -/

/-- The identity of the nurse `a`. -/
def nurse : JSVal :=
  .obj [("username", .prim (.str "a")), ("role", .prim (.str "Nurse"))]

/-- A token answer as the backend should return it. -/
def tokenAnswer : JSVal :=
  .obj [("access", .prim (.str "t")), ("refresh", .prim (.str "r")), ("user", nurse)]

/-- A stand-in for `JSON.parse` that reads six documents as `JSON.parse` does,
the token answer above, the identity in it and their four strings, and throws
on every other text. -/
def parseSample (text : String) : Option JSVal :=
  if text = "\x7b\"access\":\"t\",\"refresh\":\"r\",\"user\":\x7b\"username\":\"a\",\"role\":\"Nurse\"\x7d\x7d" then
    some tokenAnswer
  else if text = "\x7b\"username\":\"a\",\"role\":\"Nurse\"\x7d" then some nurse
  else if text = "\"t\"" then some (.prim (.str "t"))
  else if text = "\"r\"" then some (.prim (.str "r"))
  else if text = "\"a\"" then some (.prim (.str "a"))
  else if text = "\"Nurse\"" then some (.prim (.str "Nurse"))
  else none

/-! ## Status workflow: lemmas -/

theorem indexOf_cases (x : Prim) :
    indexOf STATUS_ORDER x = -1 ∨ indexOf STATUS_ORDER x = 0 ∨ indexOf STATUS_ORDER x = 1 ∨
      indexOf STATUS_ORDER x = 2 ∨ indexOf STATUS_ORDER x = 3 := by
  cases x with
  | str s =>
    simp only [indexOf]
    split
    · rename_i h
      have h4 : List.indexOf s STATUS_ORDER < 4 := h
      omega
    · exact Or.inl rfl
  | _ => exact Or.inl rfl

theorem indexOf_of_not_mem (s : String) (h : s ∉ STATUS_ORDER) :
    indexOf STATUS_ORDER (.str s) = -1 := by
  simp only [indexOf]
  rw [List.indexOf_of_not_mem h]
  simp

theorem nextIndex_range (status : Prim) : 0 ≤ nextIndex status ∧ nextIndex status ≤ 3 := by
  have hlen : ((STATUS_ORDER.length : Int) - 1) = 3 := by decide
  unfold nextIndex
  rw [hlen]
  rcases indexOf_cases (status.orElse (.str "billing")) with h | h | h | h | h <;>
    rw [h] <;> decide

theorem arrayGet_of_range (i : Int) (h0 : 0 ≤ i) (h3 : i ≤ 3) :
    ∃ t, t ∈ STATUS_ORDER ∧ arrayGet STATUS_ORDER i = .str t ∧
      indexOf STATUS_ORDER (.str t) = i := by
  have hi : i = 0 ∨ i = 1 ∨ i = 2 ∨ i = 3 := by omega
  rcases hi with rfl | rfl | rfl | rfl
  · exact ⟨"billing", by decide, by decide, by decide⟩
  · exact ⟨"consultation", by decide, by decide, by decide⟩
  · exact ⟨"lab", by decide, by decide, by decide⟩
  · exact ⟨"done", by decide, by decide, by decide⟩

theorem nextStatus_eq_self_iff (status : Prim) :
    nextStatus status = status ↔ status = .str "done" := by
  constructor
  · intro h
    have hr := nextIndex_range status
    obtain ⟨t, ht, hget, hidx⟩ := arrayGet_of_range (nextIndex status) hr.1 hr.2
    have hs : status = .str t := by rw [← h]; exact hget
    subst hs
    have hmem : t = "billing" ∨ t = "consultation" ∨ t = "lab" ∨ t = "done" := by
      simpa [STATUS_ORDER] using ht
    rcases hmem with rfl | rfl | rfl | rfl
    · exact absurd h (by decide)
    · exact absurd h (by decide)
    · exact absurd h (by decide)
    · rfl
  · rintro rfl
    decide

theorem advanceStatus_of_ne (update : Prim → UpdateObj → Except JSError Patient)
    (st : Dashboard) (p : Patient) (h : p.status ≠ .str "done") :
    advanceStatus update st p =
      match update p.id ⟨nextStatus p.status⟩ with
      | .ok updated =>
        ⟨{ st with
            patients := st.patients.map (fun i => if i.id = p.id then updated else i)
            msg := "Patient " ++ p.id.toStr ++ " moved to \"" ++
              (labelOf (nextStatus p.status)).toStr ++ "\"" },
          [⟨p.id, ⟨nextStatus p.status⟩⟩]⟩
      | .error _ =>
        ⟨{ st with msg := "Failed to update status" }, [⟨p.id, ⟨nextStatus p.status⟩⟩]⟩ := by
  have hne : ¬ nextStatus p.status = p.status := fun e => h ((nextStatus_eq_self_iff _).1 e)
  simp only [advanceStatus, hne, if_false]

theorem advanceStatus_calls_of_ne (update : Prim → UpdateObj → Except JSError Patient)
    (st : Dashboard) (p : Patient) (h : p.status ≠ .str "done") :
    (advanceStatus update st p).calls = [⟨p.id, ⟨nextStatus p.status⟩⟩] := by
  rw [advanceStatus_of_ne update st p h]
  cases update p.id ⟨nextStatus p.status⟩ <;> rfl

/-! ## Status workflow: the claims -/

/-- C1: for a patient whose status is billing, consultation or lab, or is absent,
`advanceStatus` calls the update collaborator exactly once, with the patient's id
and the body whose status is `STATUS_ORDER[min(index + 1, 3)]`: consultation for
billing and for an absent status, lab for consultation, done for lab. A record
without status issues the same call as one with status billing. -/
theorem advanceStatus_calls_next (update : Prim → UpdateObj → Except JSError Patient)
    (st : Dashboard) (p : Patient)
    (h : p.status = .undefined ∨ p.status = .str "billing" ∨
      p.status = .str "consultation" ∨ p.status = .str "lab") :
    (advanceStatus update st p).calls = [⟨p.id, ⟨nextStatus p.status⟩⟩] ∧
    nextStatus p.status =
      arrayGet STATUS_ORDER
        (min (indexOf STATUS_ORDER (p.status.orElse (.str "billing")) + 1) 3) ∧
    (p.status = .undefined → nextStatus p.status = .str "consultation") ∧
    (p.status = .str "billing" → nextStatus p.status = .str "consultation") ∧
    (p.status = .str "consultation" → nextStatus p.status = .str "lab") ∧
    (p.status = .str "lab" → nextStatus p.status = .str "done") ∧
    (advanceStatus update st { p with status := .undefined }).calls =
      (advanceStatus update st { p with status := .str "billing" }).calls := by
  have hne : p.status ≠ .str "done" := by
    rcases h with h | h | h | h <;> rw [h] <;> decide
  refine ⟨advanceStatus_calls_of_ne update st p hne, rfl, ?_, ?_, ?_, ?_, ?_⟩
  · intro e; rw [e]; decide
  · intro e; rw [e]; decide
  · intro e; rw [e]; decide
  · intro e; rw [e]; decide
  · rw [advanceStatus_calls_of_ne update st _ (fun e => Prim.noConfusion e),
      advanceStatus_calls_of_ne update st _
        (show Prim.str "billing" ≠ Prim.str "done" by decide)]
    rfl

theorem advanceStatus_calls_next_witness :
    (advanceStatus (fun _ _ => .error ⟨"Failed to fetch"⟩) ⟨[], false, ""⟩
        ⟨.num 7, .str "lab", []⟩).calls = [⟨.num 7, ⟨.str "done"⟩⟩] :=
  by
    have h := advanceStatus_calls_next (fun _ _ => .error ⟨"Failed to fetch"⟩) ⟨[], false, ""⟩
      ⟨.num 7, .str "lab", []⟩ (Or.inr (Or.inr (Or.inr rfl)))
    rw [h.1, h.2.2.2.2.2.1 rfl]

/-- C6: for a patient whose status is done, `advanceStatus` makes no call to the
update collaborator and returns with the cached list, the message and the rest
of the component state unchanged. -/
theorem advanceStatus_done_noop (update : Prim → UpdateObj → Except JSError Patient)
    (st : Dashboard) (p : Patient) (h : p.status = .str "done") :
    (advanceStatus update st p).calls = [] ∧
    (advanceStatus update st p).state = st ∧
    (advanceStatus update st p).state.patients = st.patients ∧
    (advanceStatus update st p).state.msg = st.msg := by
  have he : nextStatus p.status = p.status := (nextStatus_eq_self_iff _).2 h
  have hr : advanceStatus update st p = ⟨st, []⟩ := by
    simp only [advanceStatus, he, if_true]
  rw [hr]
  exact ⟨rfl, rfl, rfl, rfl⟩

theorem advanceStatus_done_noop_witness :
    (advanceStatus (fun _ _ => .ok ⟨.num 1, .str "billing", []⟩)
        ⟨[⟨.num 1, .str "done", []⟩], false, "hello"⟩ ⟨.num 1, .str "done", []⟩).calls = [] :=
  (advanceStatus_done_noop (fun _ _ => .ok ⟨.num 1, .str "billing", []⟩)
    ⟨[⟨.num 1, .str "done", []⟩], false, "hello"⟩ ⟨.num 1, .str "done", []⟩ rfl).1

/-- C7: for a status of the enumeration billing, consultation, lab, done, or an
absent status (read as billing), the next status computed by `advanceStatus` is
a member of `STATUS_ORDER` whose position is at least the position of the
current status and at most the last index 3. -/
theorem nextStatus_forward (status : Prim)
    (h : status = .undefined ∨ status = .str "billing" ∨ status = .str "consultation" ∨
      status = .str "lab" ∨ status = .str "done") :
    ∃ t, nextStatus status = .str t ∧ t ∈ STATUS_ORDER ∧
      indexOf STATUS_ORDER (status.orElse (.str "billing")) ≤ indexOf STATUS_ORDER (.str t) ∧
      indexOf STATUS_ORDER (.str t) ≤ (STATUS_ORDER.length : Int) - 1 := by
  rcases h with rfl | rfl | rfl | rfl | rfl
  · exact ⟨"consultation", by decide, by decide, by decide, by decide⟩
  · exact ⟨"consultation", by decide, by decide, by decide, by decide⟩
  · exact ⟨"lab", by decide, by decide, by decide, by decide⟩
  · exact ⟨"done", by decide, by decide, by decide, by decide⟩
  · exact ⟨"done", by decide, by decide, by decide, by decide⟩

theorem nextStatus_forward_witness :
    ∃ t, nextStatus (.str "lab") = .str t ∧ t ∈ STATUS_ORDER ∧
      indexOf STATUS_ORDER ((Prim.str "lab").orElse (.str "billing")) ≤
        indexOf STATUS_ORDER (.str t) ∧
      indexOf STATUS_ORDER (.str t) ≤ (STATUS_ORDER.length : Int) - 1 :=
  nextStatus_forward (.str "lab") (Or.inr (Or.inr (Or.inr (Or.inl rfl))))

/-- C8: for a patient whose status is not done, when the update collaborator
returns `u`, the new cached list has the length of the old one and, position by
position, holds `u` itself where the old entry has the patient's id and the old
entry everywhere else. -/
theorem advanceStatus_replaces_entry (update : Prim → UpdateObj → Except JSError Patient)
    (st : Dashboard) (p u : Patient) (h : p.status ≠ .str "done")
    (hu : update p.id ⟨nextStatus p.status⟩ = .ok u) :
    (advanceStatus update st p).state.patients.length = st.patients.length ∧
    ∀ (k : Nat) (i : Patient), st.patients[k]? = some i →
      (i.id = p.id → (advanceStatus update st p).state.patients[k]? = some u) ∧
      (i.id ≠ p.id → (advanceStatus update st p).state.patients[k]? = some i) := by
  rw [advanceStatus_of_ne update st p h, hu]
  refine ⟨by simp, ?_⟩
  intro k i hk
  constructor
  · intro hid
    simp only [List.getElem?_map, hk, Option.map_some', hid, if_true]
  · intro hid
    simp only [List.getElem?_map, hk, Option.map_some', hid, if_false]

theorem advanceStatus_replaces_entry_witness :
    (advanceStatus (fun _ _ => .ok ⟨.num 7, .str "consultation", [("first_name", .str "A")]⟩)
        ⟨[⟨.num 3, .str "lab", []⟩, ⟨.num 7, .str "billing", []⟩], false, ""⟩
        ⟨.num 7, .str "billing", []⟩).state.patients[1]? =
      some ⟨.num 7, .str "consultation", [("first_name", .str "A")]⟩ :=
  ((advanceStatus_replaces_entry
      (fun _ _ => .ok ⟨.num 7, .str "consultation", [("first_name", .str "A")]⟩)
      ⟨[⟨.num 3, .str "lab", []⟩, ⟨.num 7, .str "billing", []⟩], false, ""⟩
      ⟨.num 7, .str "billing", []⟩ ⟨.num 7, .str "consultation", [("first_name", .str "A")]⟩
      (by decide) rfl).2 1 ⟨.num 7, .str "billing", []⟩ rfl).1 rfl

/-- C10: for a patient whose status is a non-empty string outside the
enumeration, `advanceStatus` calls the update collaborator with status billing;
and for every status value whatever, the computed index lies in 0..3, the next
status is a member of `STATUS_ORDER` and its label is defined. -/
theorem advanceStatus_unknown_status (update : Prim → UpdateObj → Except JSError Patient)
    (st : Dashboard) (p : Patient) :
    (∀ s, p.status = .str s → s ≠ "" → s ∉ STATUS_ORDER →
      (advanceStatus update st p).calls = [⟨p.id, ⟨.str "billing"⟩⟩]) ∧
    (0 ≤ nextIndex p.status ∧ nextIndex p.status ≤ 3) ∧
    (∃ t, t ∈ STATUS_ORDER ∧ nextStatus p.status = .str t) ∧
    (∃ l, labelOf (nextStatus p.status) = .str l) := by
  have hr := nextIndex_range p.status
  obtain ⟨t, ht, hget, -⟩ := arrayGet_of_range (nextIndex p.status) hr.1 hr.2
  refine ⟨?_, hr, ⟨t, ht, hget⟩, ?_⟩
  · intro s hs hne hmem
    have hdone : p.status ≠ .str "done" := by
      rw [hs]
      intro e
      injection e with e
      exact hmem (by rw [e]; decide)
    rw [advanceStatus_calls_of_ne update st p hdone]
    have htruthy : (Prim.str s).truthy = true := by
      simp [Prim.truthy, hne]
    have hnext : nextStatus p.status = .str "billing" := by
      rw [hs]
      simp only [nextStatus, nextIndex, Prim.orElse, htruthy, if_true,
        indexOf_of_not_mem s hmem]
      decide
    rw [hnext]
  · have hnext : nextStatus p.status = .str t := hget
    rw [hnext]
    have hmem : t = "billing" ∨ t = "consultation" ∨ t = "lab" ∨ t = "done" := by
      simpa [STATUS_ORDER] using ht
    rcases hmem with rfl | rfl | rfl | rfl
    · exact ⟨"Sent to Billing", by decide⟩
    · exact ⟨"Doctor Consultation", by decide⟩
    · exact ⟨"Lab Requested", by decide⟩
    · exact ⟨"Completed", by decide⟩

theorem advanceStatus_unknown_status_witness :
    (advanceStatus (fun _ _ => .error ⟨"Failed to fetch"⟩) ⟨[], false, ""⟩
        ⟨.num 4, .str "triage", []⟩).calls = [⟨.num 4, ⟨.str "billing"⟩⟩] :=
  (advanceStatus_unknown_status (fun _ _ => .error ⟨"Failed to fetch"⟩) ⟨[], false, ""⟩
    ⟨.num 4, .str "triage", []⟩).1 "triage" rfl (by decide) (by decide)

/-- When the update collaborator raises, `advanceStatus` keeps the cached list
and sets the failure message. -/
theorem advanceStatus_of_error (update : Prim → UpdateObj → Except JSError Patient)
    (st : Dashboard) (p : Patient) (e : JSError) (h : p.status ≠ .str "done")
    (hu : update p.id ⟨nextStatus p.status⟩ = .error e) :
    (advanceStatus update st p).state.patients = st.patients ∧
    (advanceStatus update st p).state.msg = "Failed to update status" := by
  rw [advanceStatus_of_ne update st p h, hu]
  exact ⟨rfl, rfl⟩

/-- The function `updatePatient` raises exactly when `fetch` rejects or the body
of the answer is not JSON; the status code plays no part. -/
theorem updatePatient_error_iff (fetch : Request → FetchResult Patient) (store : Store)
    (patientId : Prim) (updateObj : UpdateObj) :
    (∃ e, updatePatient fetch store patientId updateObj = .error e) ↔
      (fetch (updateRequest store patientId updateObj) = .rejected ∨
        ∃ status, fetch (updateRequest store patientId updateObj) = .resolved ⟨status, none⟩) := by
  unfold updatePatient
  cases hf : fetch (updateRequest store patientId updateObj) with
  | rejected => simp
  | resolved res =>
    obtain ⟨status, json⟩ := res
    cases json <;> simp

/-- C2: at a 404 answer whose body is JSON, `advanceStatus` does not keep the
cached list: it puts the error body in place of the patient and sets the success
message. -/
theorem advanceStatus_non2xx_json_body :
    Response.ok (⟨404, some ⟨.undefined, .undefined, [("detail", .str "Not found.")]⟩⟩ :
      Response Patient) = false ∧
    advanceStatus
      (updatePatient
        (fun _ => .resolved ⟨404, some ⟨.undefined, .undefined, [("detail", .str "Not found.")]⟩⟩)
        ⟨some "t", some "r", some "u"⟩)
      ⟨[⟨.num 7, .str "billing", []⟩], false, ""⟩ ⟨.num 7, .str "billing", []⟩ =
    ⟨⟨[⟨.undefined, .undefined, [("detail", .str "Not found.")]⟩], false,
        "Patient 7 moved to \"Doctor Consultation\""⟩,
      [⟨.num 7, ⟨.str "consultation"⟩⟩]⟩ := by
  constructor
  · decide
  · decide

/-! ## Session: lemmas -/

theorem setItem_ok {room : Slot → String → Bool} {store store' : Store} {slot : Slot}
    {value : JSVal} (h : setItem room store slot value = .ok store') :
    ∃ text, store' = store.set slot text := by
  unfold setItem at h
  cases hv : value.toStr with
  | error e => simp [hv] at h
  | ok text =>
    simp only [hv] at h
    split at h
    · injection h with h
      exact ⟨text, h.symm⟩
    · simp at h

theorem jsonStringify_toStr (v : JSVal) : v.jsonStringify.toStr = .ok (serialize v) := by
  unfold JSVal.jsonStringify serialize
  cases v.stringify <;> rfl

theorem setItem_user_ok {room : Slot → String → Bool} {store store' : Store} {v : JSVal}
    (h : setItem room store .user v.jsonStringify = .ok store') :
    store' = store.set .user (serialize v) := by
  unfold setItem at h
  rw [jsonStringify_toStr] at h
  simp only at h
  split at h
  · injection h with h
    exact h.symm
  · simp at h

/-- The three writes leave the store as it was, or with the token written, or
with token and refresh written, each time with an error, or with all three
written and no error. -/
theorem persistSession_cases (room : Slot → String → Bool) (store : Store) (data : JSVal) :
    (∃ e, persistSession room store data = (store, some e)) ∨
    (∃ e t, persistSession room store data = ({ store with token := some t }, some e)) ∨
    (∃ e t r, persistSession room store data =
      ({ store with token := some t, refresh := some r }, some e)) ∨
    (∃ t r, persistSession room store data =
      (⟨some t, some r, some (serialize (data.optProp "user"))⟩, none)) := by
  cases h1 : setItem room store .token (data.optProp "access") with
  | error e => exact Or.inl ⟨e, by simp only [persistSession, h1]⟩
  | ok store1 =>
    obtain ⟨t, rfl⟩ := setItem_ok h1
    cases h2 : setItem room (store.set .token t) .refresh (data.optProp "refresh") with
    | error e => exact Or.inr (Or.inl ⟨e, t, by simp only [persistSession, h1, h2]; rfl⟩)
    | ok store2 =>
      obtain ⟨r, rfl⟩ := setItem_ok h2
      cases h3 : setItem room ((store.set .token t).set .refresh r) .user
          (data.optProp "user").jsonStringify with
      | error e =>
        exact Or.inr (Or.inr (Or.inl ⟨e, t, r, by simp only [persistSession, h1, h2, h3]; rfl⟩))
      | ok store3 =>
        have h4 := setItem_user_ok h3
        subst h4
        exact Or.inr (Or.inr (Or.inr ⟨t, r, by simp only [persistSession, h1, h2, h3]; rfl⟩))

theorem loginUser_of_not_ok (room : Slot → String → Bool) (fetch : Request → FetchResult JSVal)
    (credentials : JSVal) (store : Store) (res : Response JSVal)
    (hres : fetch (loginRequest credentials) = .resolved res) (hok : res.ok = false) :
    loginUser room fetch credentials store =
      (store, .error ⟨"Login failed: " ++ toString res.status⟩) := by
  simp [loginUser, hres, hok]

/-- Every outcome of `loginUser`: it raises with the store as it was, or with
the token written, or with token and refresh written; or it returns the answer
without writing, the access token being falsy; or it returns the answer with
the three slots written, the access token being truthy. -/
theorem loginUser_cases (room : Slot → String → Bool) (fetch : Request → FetchResult JSVal)
    (credentials : JSVal) (store : Store) :
    (∃ e, loginUser room fetch credentials store = (store, .error e)) ∨
    (∃ e t, loginUser room fetch credentials store =
      ({ store with token := some t }, .error e)) ∨
    (∃ e t r, loginUser room fetch credentials store =
      ({ store with token := some t, refresh := some r }, .error e)) ∨
    (∃ res data, fetch (loginRequest credentials) = .resolved res ∧ res.ok = true ∧
      res.json = some data ∧ (data.optProp "access").truthy = false ∧
      loginUser room fetch credentials store = (store, .ok data)) ∨
    (∃ res data t r, fetch (loginRequest credentials) = .resolved res ∧ res.ok = true ∧
      res.json = some data ∧ (data.optProp "access").truthy = true ∧
      loginUser room fetch credentials store =
        (⟨some t, some r, some (serialize (data.optProp "user"))⟩, .ok data)) := by
  cases hres : fetch (loginRequest credentials) with
  | rejected => exact Or.inl ⟨⟨"Failed to fetch"⟩, by simp [loginUser, hres]⟩
  | resolved res =>
    cases hok : res.ok with
    | false => exact Or.inl ⟨_, loginUser_of_not_ok room fetch credentials store res hres hok⟩
    | true =>
      cases hj : res.json with
      | none =>
        exact Or.inl ⟨⟨"Unexpected token in JSON"⟩, by simp [loginUser, hres, hok, hj]⟩
      | some data =>
        cases ht : (data.optProp "access").truthy with
        | false =>
          exact Or.inr (Or.inr (Or.inr (Or.inl
            ⟨res, data, rfl, hok, hj, ht, by simp [loginUser, hres, hok, hj, ht]⟩)))
        | true =>
          have hl : loginUser room fetch credentials store =
              match persistSession room store data with
              | (store', some e) => (store', .error e)
              | (store', none) => (store', .ok data) := by
            simp [loginUser, hres, hok, hj, ht]
          rcases persistSession_cases room store data with
            ⟨e, h⟩ | ⟨e, t, h⟩ | ⟨e, t, r, h⟩ | ⟨t, r, h⟩
          · exact Or.inl ⟨e, by rw [hl, h]⟩
          · exact Or.inr (Or.inl ⟨e, t, by rw [hl, h]⟩)
          · exact Or.inr (Or.inr (Or.inl ⟨e, t, r, by rw [hl, h]⟩))
          · exact Or.inr (Or.inr (Or.inr (Or.inr
              ⟨res, data, t, r, rfl, hok, hj, ht, by rw [hl, h]⟩)))

theorem truthy_optProp_getProp (data : JSVal) (key : String)
    (h : (data.optProp "access").truthy = true) :
    data.getProp key = .ok (data.optProp key) := by
  cases data with
  | prim p => simp [JSVal.optProp, JSVal.truthy, Prim.truthy] at h
  | arr items => rfl
  | obj fields => rfl

theorem getProp_ok {data u : JSVal} {key : String} (h : data.getProp key = .ok u) :
    u = data.optProp key := by
  unfold JSVal.getProp at h
  split at h
  · simp at h
  · simp at h
  · injection h with h
    exact h.symm

/-- Every outcome of `login`: it raises with the identity kept and the store as
it was, or with the token written, or with token and refresh written; or it
returns with the identity of a token-less 2xx answer and the store as it was;
or it returns with the identity of the answer and the three slots written. -/
theorem login_cases (room : Slot → String → Bool) (fetch : Request → FetchResult JSVal)
    (credentials : JSVal) (s : Session) :
    (∃ e, login room fetch credentials s = (s, some e)) ∨
    (∃ e t, login room fetch credentials s =
      ({ s with store := { s.store with token := some t } }, some e)) ∨
    (∃ e t r, login room fetch credentials s =
      ({ s with store := { s.store with token := some t, refresh := some r } }, some e)) ∨
    (∃ res data, fetch (loginRequest credentials) = .resolved res ∧ res.ok = true ∧
      res.json = some data ∧ (data.optProp "access").truthy = false ∧
      login room fetch credentials s = (⟨data.optProp "user", s.store⟩, none)) ∨
    (∃ res data t r, fetch (loginRequest credentials) = .resolved res ∧ res.ok = true ∧
      res.json = some data ∧ (data.optProp "access").truthy = true ∧
      login room fetch credentials s =
        (⟨data.optProp "user", ⟨some t, some r, some (serialize (data.optProp "user"))⟩⟩,
          none)) := by
  rcases loginUser_cases room fetch credentials s.store with
    ⟨e, h⟩ | ⟨e, t, h⟩ | ⟨e, t, r, h⟩ | ⟨res, data, hres, hok, hj, ht, h⟩ |
    ⟨res, data, t, r, hres, hok, hj, ht, h⟩
  · exact Or.inl ⟨e, by simp [login, h]⟩
  · exact Or.inr (Or.inl ⟨e, t, by simp [login, h]⟩)
  · exact Or.inr (Or.inr (Or.inl ⟨e, t, r, by simp [login, h]⟩))
  · cases hg : data.getProp "user" with
    | error e => exact Or.inl ⟨e, by simp [login, h, hg]⟩
    | ok u =>
      have hu := getProp_ok hg
      subst hu
      exact Or.inr (Or.inr (Or.inr (Or.inl
        ⟨res, data, hres, hok, hj, ht, by simp [login, h, hg]⟩)))
  · have hg := truthy_optProp_getProp data "user" ht
    exact Or.inr (Or.inr (Or.inr (Or.inr
      ⟨res, data, t, r, hres, hok, hj, ht, by simp [login, h, hg]⟩)))

theorem restore_store (parse : String → Option JSVal) (s : Session) :
    (restore parse s).1.store = s.store := by
  unfold restore
  cases hs : s.store.user with
  | none => simp [hs]
  | some str =>
    simp only
    split
    · cases parse str <;> simp [hs]
    · simp [hs]

theorem step_prefixClosed (parse : String → Option JSVal) (s : Session) (a : Action)
    (h : s.store.prefixClosed) : (step parse s a).store.prefixClosed := by
  cases a with
  | restore =>
    simp only [step, restore_store]
    exact h
  | login credentials answer room =>
    simp only [step]
    rcases login_cases room (fun _ => answer) credentials s with
      ⟨e, hl⟩ | ⟨e, t, hl⟩ | ⟨e, t, r, hl⟩ | ⟨res, data, -, -, -, -, hl⟩ |
      ⟨res, data, t, r, -, -, -, -, hl⟩
    · rw [hl]; exact h
    · rw [hl]; exact ⟨h.1, fun _ => rfl⟩
    · rw [hl]; exact ⟨fun _ => rfl, fun _ => rfl⟩
    · rw [hl]; exact h
    · rw [hl]; exact ⟨fun _ => rfl, fun _ => rfl⟩
  | logout => exact ⟨fun hu => absurd hu (by simp [step, logout]), fun hr => absurd hr (by simp [step, logout])⟩

theorem run_prefixClosed (parse : String → Option JSVal) (acts : List Action) (s : Session)
    (h : s.store.prefixClosed) : (run parse s acts).store.prefixClosed := by
  induction acts generalizing s with
  | nil => exact h
  | cons a rest ih => exact ih (step parse s a) (step_prefixClosed parse s a h)

theorem step_allOrNone (parse : String → Option JSVal) (s : Session) (a : Action)
    (hok : ¬ a.interrupted s) (h : s.store.allOrNone) : (step parse s a).store.allOrNone := by
  cases a with
  | restore =>
    simp only [step, restore_store]
    exact h
  | login credentials answer room =>
    simp only [step]
    rcases login_cases room (fun _ => answer) credentials s with
      ⟨e, hl⟩ | ⟨e, t, hl⟩ | ⟨e, t, r, hl⟩ | ⟨res, data, -, -, -, -, hl⟩ |
      ⟨res, data, t, r, -, -, -, -, hl⟩
    · rw [hl]; exact h
    · rcases h with hfull | hnone
      · rw [hl]; exact Or.inl ⟨rfl, hfull.2.1, hfull.2.2⟩
      · exfalso
        apply hok
        simp only [Action.interrupted, hl]
        refine ⟨rfl, ?_, ?_⟩
        · intro heq
          have ht := congrArg Store.token heq
          rw [hnone.1] at ht
          exact absurd ht (by simp)
        · intro hfull
          rw [hnone.1] at hfull
          exact absurd hfull.1 (by simp)
    · rcases h with hfull | hnone
      · rw [hl]; exact Or.inl ⟨rfl, rfl, hfull.2.2⟩
      · exfalso
        apply hok
        simp only [Action.interrupted, hl]
        refine ⟨rfl, ?_, ?_⟩
        · intro heq
          have ht := congrArg Store.token heq
          rw [hnone.1] at ht
          exact absurd ht (by simp)
        · intro hfull
          rw [hnone.1] at hfull
          exact absurd hfull.1 (by simp)
    · rw [hl]; exact h
    · rw [hl]; exact Or.inl ⟨rfl, rfl, rfl⟩
  | logout => exact Or.inr ⟨rfl, rfl, rfl⟩

theorem run_allOrNone (parse : String → Option JSVal) (acts : List Action) (s : Session)
    (hok : alongRun parse (fun s a => ¬ a.interrupted s) s acts) (h : s.store.allOrNone) :
    (run parse s acts).store.allOrNone := by
  induction acts generalizing s with
  | nil => exact h
  | cons a rest ih => exact ih (step parse s a) hok.2 (step_allOrNone parse s a hok.1 h)

theorem restore_consistent (parse : String → Option JSVal) (hparse : JSONParser parse)
    (s : Session) (h : s.consistent parse) : (restore parse s).1.consistent parse := by
  intro stored hstored
  rw [restore_store] at hstored
  obtain ⟨⟨u, hu, hwritten⟩, -⟩ := h stored hstored
  refine ⟨⟨u, hu, hwritten⟩, ?_⟩
  unfold restore
  rw [hstored]
  simp only
  split
  · cases hp : parse stored with
    | none => intro ht; simp [JSVal.truthy, Prim.truthy] at ht
    | some v =>
      intro _
      show stored = serialize v
      rcases hwritten with hparsed | hundef
      · rw [hu] at hp
        rw [hu]
        exact (hparse.roundtrip u v hparsed hp).symm
      · exfalso
        have hs : stored = "undefined" := by rw [hu, hundef]; rfl
        rw [hs, hparse.undefinedFails] at hp
        exact absurd hp (by simp)
  · intro ht; simp [JSVal.truthy, Prim.truthy] at ht

theorem optProp_written (parse : String → Option JSVal) (hparse : JSONParser parse)
    (data : JSVal) (key : String) (hdata : Parsed parse data) :
    Parsed parse (data.optProp key) ∨ data.optProp key = .prim .undefined := by
  cases data with
  | prim p => exact Or.inr rfl
  | arr items => exact Or.inr rfl
  | obj fields =>
    cases hl : fields.lookup key with
    | none => right; simp [JSVal.optProp, hl]
    | some w =>
      left
      have hw : (JSVal.obj fields).optProp key = w := by simp [JSVal.optProp, hl]
      rw [hw]
      exact hparse.subvalue fields key w hdata hl

theorem login_consistent (parse : String → Option JSVal) (hparse : JSONParser parse)
    (credentials : JSVal) (answer : FetchResult JSVal) (room : Slot → String → Bool)
    (s : Session) (hparsed : (Action.login credentials answer room).answerParsed parse)
    (hok : ¬ (Action.login credentials answer room).foreignIdentity s)
    (h : s.consistent parse) :
    (login room (fun _ => answer) credentials s).1.consistent parse := by
  rcases login_cases room (fun _ => answer) credentials s with
    ⟨e, hl⟩ | ⟨e, t, hl⟩ | ⟨e, t, r, hl⟩ | ⟨res, data, hres, hresok, hj, ht, hl⟩ |
    ⟨res, data, t, r, hres, hresok, hj, ht, hl⟩
  · rw [hl]; exact h
  · rw [hl]; exact h
  · rw [hl]; exact h
  · rw [hl]
    intro stored hstored
    have hstored2 : s.store.user = some stored := hstored
    refine ⟨(h stored hstored2).1, ?_⟩
    intro htruthy
    have htruthy2 : (data.optProp "user").truthy = true := htruthy
    show stored = serialize (data.optProp "user")
    by_contra hne
    apply hok
    have ha : answer = .resolved res := hres
    subst ha
    exact ⟨hresok, data, hj, ht, htruthy2, stored, hstored2, hne⟩
  · rw [hl]
    intro stored hstored
    have hstored2 : some (serialize (data.optProp "user")) = some stored := hstored
    have hsame : serialize (data.optProp "user") = stored := Option.some.inj hstored2
    have ha : answer = .resolved res := hres
    subst ha
    have hdata : Parsed parse data := hparsed data hj
    exact ⟨⟨data.optProp "user", hsame.symm, optProp_written parse hparse data "user" hdata⟩,
      fun _ => hsame.symm⟩

theorem step_consistent (parse : String → Option JSVal) (hparse : JSONParser parse)
    (s : Session) (a : Action) (hparsed : a.answerParsed parse)
    (hok : ¬ a.foreignIdentity s) (h : s.consistent parse) :
    (step parse s a).consistent parse := by
  cases a with
  | restore => exact restore_consistent parse hparse s h
  | login credentials answer room =>
    exact login_consistent parse hparse credentials answer room s hparsed hok h
  | logout =>
    intro stored hstored
    exact absurd hstored (by simp [step, logout])

theorem run_consistent (parse : String → Option JSVal) (hparse : JSONParser parse)
    (acts : List Action) (s : Session)
    (hok : alongRun parse (fun s a => a.answerParsed parse ∧ ¬ a.foreignIdentity s) s acts)
    (h : s.consistent parse) : (run parse s acts).consistent parse := by
  induction acts generalizing s with
  | nil => exact h
  | cons a rest ih =>
    exact ih (step parse s a) hok.2 (step_consistent parse hparse s a hok.1.1 hok.1.2 h)

theorem lookup_mem {fields : List (String × JSVal)} {key : String} {w : JSVal}
    (h : fields.lookup key = some w) : w ∈ fields.map Prod.snd := by
  induction fields with
  | nil => simp at h
  | cons p rest ih =>
    obtain ⟨k, v⟩ := p
    rw [List.lookup_cons] at h
    split at h
    · injection h with h
      simp [h]
    · simp [ih h]

theorem parseSample_range {text : String} {v : JSVal} (h : parseSample text = some v) :
    v = tokenAnswer ∨ v = nurse ∨ v = .prim (.str "t") ∨ v = .prim (.str "r") ∨
      v = .prim (.str "a") ∨ v = .prim (.str "Nurse") := by
  unfold parseSample at h
  split_ifs at h <;> injection h with h <;> simp [← h]

theorem parseSample_parsed {v : JSVal}
    (h : v = tokenAnswer ∨ v = nurse ∨ v = .prim (.str "t") ∨ v = .prim (.str "r") ∨
      v = .prim (.str "a") ∨ v = .prim (.str "Nurse")) :
    parseSample (serialize v) = some v := by
  rcases h with rfl | rfl | rfl | rfl | rfl | rfl <;> rfl

theorem parseSample_laws : JSONParser parseSample where
  subvalue := by
    intro fields key w hparsed hlookup
    obtain ⟨text, htext⟩ := hparsed
    have hmem := lookup_mem hlookup
    have hw : w = tokenAnswer ∨ w = nurse ∨ w = .prim (.str "t") ∨ w = .prim (.str "r") ∨
        w = .prim (.str "a") ∨ w = .prim (.str "Nurse") := by
      rcases parseSample_range htext with h | h | h | h | h | h
      · simp only [tokenAnswer, JSVal.obj.injEq] at h
        subst h
        simp only [List.map_cons, List.map_nil, List.mem_cons, List.mem_singleton,
          List.not_mem_nil, or_false] at hmem
        rcases hmem with rfl | rfl | rfl <;> simp
      · simp only [nurse, JSVal.obj.injEq] at h
        subst h
        simp only [List.map_cons, List.map_nil, List.mem_cons, List.mem_singleton,
          List.not_mem_nil, or_false] at hmem
        rcases hmem with rfl | rfl <;> simp
      · exact absurd h (by simp)
      · exact absurd h (by simp)
      · exact absurd h (by simp)
      · exact absurd h (by simp)
    exact ⟨serialize w, parseSample_parsed hw⟩
  roundtrip := by
    intro v w hparsed hw
    obtain ⟨text, htext⟩ := hparsed
    rw [parseSample_parsed (parseSample_range htext)] at hw
    injection hw with hw
    rw [hw]
  undefinedFails := rfl

/-! ## Session: the claims -/

/-- C3: for every prior session and every credentials value, when the token
endpoint answers with a non-success response, `login` raises an error to its
caller and the current identity and the three persisted slots keep their values. -/
theorem login_failure_keeps_state (room : Slot → String → Bool)
    (fetch : Request → FetchResult JSVal) (credentials : JSVal)
    (s : Session) (res : Response JSVal)
    (hres : fetch (loginRequest credentials) = .resolved res) (hok : res.ok = false) :
    (login room fetch credentials s).2 = some ⟨"Login failed: " ++ toString res.status⟩ ∧
    (login room fetch credentials s).1.user = s.user ∧
    (login room fetch credentials s).1.store.token = s.store.token ∧
    (login room fetch credentials s).1.store.refresh = s.store.refresh ∧
    (login room fetch credentials s).1.store.user = s.store.user := by
  have e : login room fetch credentials s =
      (s, some ⟨"Login failed: " ++ toString res.status⟩) := by
    simp [login, loginUser_of_not_ok room fetch credentials s.store res hres hok]
  rw [e]
  exact ⟨rfl, rfl, rfl, rfl, rfl⟩

theorem login_failure_keeps_state_witness :
    (login (fun _ _ => true)
        (fun _ => .resolved ⟨401, some (.obj [("detail", .prim (.str "No active account"))])⟩)
        (.obj [("username", .prim (.str "a")), ("password", .prim (.str "x"))])
        ⟨.obj [("username", .prim (.str "n"))], ⟨some "t", some "r", some "u"⟩⟩).2 =
      some ⟨"Login failed: 401"⟩ :=
  (login_failure_keeps_state (fun _ _ => true)
    (fun _ => .resolved ⟨401, some (.obj [("detail", .prim (.str "No active account"))])⟩)
    (.obj [("username", .prim (.str "a")), ("password", .prim (.str "x"))])
    ⟨.obj [("username", .prim (.str "n"))], ⟨some "t", some "r", some "u"⟩⟩
    ⟨401, some (.obj [("detail", .prim (.str "No active account"))])⟩ rfl (by decide)).1

/-- C5, as stated, fails: on a 200 answer whose refresh value is an object with
an own property `toString`, `loginUser` stores the token, throws while
converting the refresh value, and leaves refresh and user absent. -/
theorem store_partly_written :
    (run parseSample Session.initial
        [.login (.obj [])
          (.resolved ⟨200, some (.obj
            [("access", .prim (.str "t")),
             ("refresh", .obj [("toString", .prim (.num 1))]),
             ("user", nurse)])⟩)
          (fun _ _ => true)]).store = ⟨some "t", none, none⟩ ∧
    ¬ (run parseSample Session.initial
        [.login (.obj [])
          (.resolved ⟨200, some (.obj
            [("access", .prim (.str "t")),
             ("refresh", .obj [("toString", .prim (.num 1))]),
             ("user", nurse)])⟩)
          (fun _ _ => true)]).store.allOrNone := by
  have h : (run parseSample Session.initial
        [.login (.obj [])
          (.resolved ⟨200, some (.obj
            [("access", .prim (.str "t")),
             ("refresh", .obj [("toString", .prim (.num 1))]),
             ("user", nurse)])⟩)
          (fun _ _ => true)]).store = ⟨some "t", none, none⟩ := by decide
  refine ⟨h, ?_⟩
  rw [h]
  rintro (⟨-, hr, -⟩ | ⟨ht, -, -⟩)
  · exact absurd hr (by decide)
  · exact absurd ht (by decide)

/-- C5, amended: in every store reached from the empty store by a sequence of
login outcomes, logouts and page loads in which no login raises after having
changed the store while the three slots were not all present, the slots token,
refresh and user are all present or all absent. In every reached store the
slots present form a prefix of token, refresh, user; a login that returns
leaves the store as it was or writes all three slots; a logout leaves all three
absent. -/
theorem store_all_or_none (parse : String → Option JSVal) (user : JSVal) (acts : List Action) :
    (alongRun parse (fun s a => ¬ a.interrupted s) ⟨user, ⟨none, none, none⟩⟩ acts →
      (run parse ⟨user, ⟨none, none, none⟩⟩ acts).store.allOrNone) ∧
    (run parse ⟨user, ⟨none, none, none⟩⟩ acts).store.prefixClosed ∧
    (∀ room fetch credentials (s : Session), (login room fetch credentials s).2 = none →
      (login room fetch credentials s).1.store = s.store ∨
        ∃ t r u, (login room fetch credentials s).1.store = ⟨some t, some r, some u⟩) ∧
    (∀ s : Session, (logout s).store = ⟨none, none, none⟩) := by
  refine ⟨fun hok => run_allOrNone parse acts _ hok (Or.inr ⟨rfl, rfl, rfl⟩),
    run_prefixClosed parse acts _ ⟨fun h => absurd h (by simp), fun h => absurd h (by simp)⟩,
    ?_, fun _ => rfl⟩
  intro room fetch credentials s hnone
  rcases login_cases room fetch credentials s with
    ⟨e, hl⟩ | ⟨e, t, hl⟩ | ⟨e, t, r, hl⟩ | ⟨res, data, -, -, -, -, hl⟩ |
    ⟨res, data, t, r, -, -, -, -, hl⟩
  · rw [hl] at hnone; exact absurd hnone (by simp)
  · rw [hl] at hnone; exact absurd hnone (by simp)
  · rw [hl] at hnone; exact absurd hnone (by simp)
  · rw [hl]; exact Or.inl rfl
  · rw [hl]; exact Or.inr ⟨_, _, _, rfl⟩

theorem store_all_or_none_witness :
    (run parseSample ⟨.prim .null, ⟨none, none, none⟩⟩
        [.login (.obj []) (.resolved ⟨200, some tokenAnswer⟩) (fun _ _ => true),
         .restore,
         .login (.obj []) (.resolved ⟨200, some tokenAnswer⟩)
           (fun slot _ => decide (slot = .token))]).store.allOrNone :=
  (store_all_or_none parseSample (.prim .null)
    [.login (.obj []) (.resolved ⟨200, some tokenAnswer⟩) (fun _ _ => true),
     .restore,
     .login (.obj []) (.resolved ⟨200, some tokenAnswer⟩)
       (fun slot _ => decide (slot = .token))]).1
    ⟨fun h => absurd h.1 (by decide),
      fun h => h,
      fun h => h.2.2 (by decide),
      trivial⟩

/-- C9: for every session, whatever the current identity and the contents of
the store, after `logout` the current identity is `null` and the slots user,
token and refresh are absent. -/
theorem logout_clears (s : Session) :
    (logout s).user = .prim .null ∧ (logout s).store.user = none ∧
    (logout s).store.token = none ∧ (logout s).store.refresh = none :=
  ⟨rfl, rfl, rfl, rfl⟩

/-- C4, as stated, fails: after a login that persisted one identity, a 2xx
answer without access token but with another identity changes the in-memory
identity and leaves the persisted one. -/
theorem persisted_identity_mismatch :
    (run parseSample Session.initial
        [.login (.obj []) (.resolved ⟨200, some tokenAnswer⟩) (fun _ _ => true),
         .login (.obj []) (.resolved ⟨200, some (.obj
            [("user", .obj [("username", .prim (.str "b")), ("role", .prim (.str "Doctor"))])])⟩)
           (fun _ _ => true)]
      ).store.user = some "\x7b\"username\":\"a\",\"role\":\"Nurse\"\x7d" ∧
    (run parseSample Session.initial
        [.login (.obj []) (.resolved ⟨200, some tokenAnswer⟩) (fun _ _ => true),
         .login (.obj []) (.resolved ⟨200, some (.obj
            [("user", .obj [("username", .prim (.str "b")), ("role", .prim (.str "Doctor"))])])⟩)
           (fun _ _ => true)]
      ).user = .obj [("username", .prim (.str "b")), ("role", .prim (.str "Doctor"))] ∧
    (run parseSample Session.initial
        [.login (.obj []) (.resolved ⟨200, some tokenAnswer⟩) (fun _ _ => true),
         .login (.obj []) (.resolved ⟨200, some (.obj
            [("user", .obj [("username", .prim (.str "b")), ("role", .prim (.str "Doctor"))])])⟩)
           (fun _ _ => true)]
      ).user.truthy = true ∧
    "\x7b\"username\":\"a\",\"role\":\"Nurse\"\x7d" ≠
      serialize (run parseSample Session.initial
        [.login (.obj []) (.resolved ⟨200, some tokenAnswer⟩) (fun _ _ => true),
         .login (.obj []) (.resolved ⟨200, some (.obj
            [("user", .obj [("username", .prim (.str "b")), ("role", .prim (.str "Doctor"))])])⟩)
           (fun _ _ => true)]
      ).user := by
  refine ⟨?_, ?_, ?_, ?_⟩
  · decide
  · rfl
  · decide
  · decide

/-- C4, amended: in every session reached from the empty store and no identity
by page loads, logouts and logins, provided no 2xx JSON answer that lacks a
truthy access token carries a truthy identity while another identity is
persisted, a persisted identity is the serialization of the in-memory identity
whenever the latter is truthy. The JSON answers are values of the JSON parser,
which is assumed to obey the laws of `JSONParser`. -/
theorem persisted_identity_matches (parse : String → Option JSVal)
    (hparse : JSONParser parse) (acts : List Action)
    (hok : alongRun parse (fun s a => a.answerParsed parse ∧ ¬ a.foreignIdentity s)
      Session.initial acts)
    (stored : String)
    (hstore : (run parse Session.initial acts).store.user = some stored)
    (hmem : (run parse Session.initial acts).user.truthy = true) :
    stored = serialize (run parse Session.initial acts).user := by
  have hinit : Session.initial.consistent parse := by
    intro str hs
    exact absurd hs (by simp [Session.initial])
  exact (run_consistent parse hparse acts Session.initial hok hinit stored hstore).2 hmem

theorem persisted_identity_matches_witness :
    "\x7b\"username\":\"a\",\"role\":\"Nurse\"\x7d" =
      serialize (run parseSample Session.initial
        [.login (.obj []) (.resolved ⟨200, some tokenAnswer⟩) (fun _ _ => true),
         .restore,
         .login (.obj []) (.resolved ⟨200, some nurse⟩) (fun _ _ => true),
         .restore]).user :=
  persisted_identity_matches parseSample parseSample_laws
    [.login (.obj []) (.resolved ⟨200, some tokenAnswer⟩) (fun _ _ => true),
     .restore,
     .login (.obj []) (.resolved ⟨200, some nurse⟩) (fun _ _ => true),
     .restore]
    ⟨⟨fun data hj => ⟨serialize tokenAnswer, by
          injection hj with hj
          rw [← hj]
          rfl⟩,
        fun h => by
          obtain ⟨-, data, hj, ht, -⟩ := h
          injection hj with hj
          rw [← hj] at ht
          exact absurd ht (by decide)⟩,
      ⟨trivial, fun h => h⟩,
      ⟨fun data hj => ⟨serialize nurse, by
          injection hj with hj
          rw [← hj]
          rfl⟩,
        fun h => by
          obtain ⟨-, data, hj, -, hu, -⟩ := h
          injection hj with hj
          rw [← hj] at hu
          exact absurd hu (by decide)⟩,
      ⟨trivial, fun h => h⟩,
      trivial⟩
    "\x7b\"username\":\"a\",\"role\":\"Nurse\"\x7d"
    (by decide)
    (by decide)

end AfyaAccess
